import Mathlib

/-!
Verification of the rcpchgrowth-python-cli calculation layer.

The command-line layer lives in `rcpchgrowth_python_cli/__main__.py` (the
packaged entry point) and in a legacy iteration `cli/__main__.py`.  Both call
into the `rcpchgrowth` library (`date_calculations`,
`global_functions.mid_parental_height`, `global_functions.measurement_from_sds`,
…) and into `scipy.stats.norm.ppf`.  Those collaborators are not part of the
repository's own sources, so where a property depends on them they are
modelled here from the specification's contracts (each such definition carries
a doc comment starting with `Modelled from the spec:`); the command bodies
themselves are translated directly from the two `__main__.py` files.

Numbers: Python floats are modelled as rationals (`ℚ`); the infinities that
`scipy.stats.norm.ppf` produces at the boundary of its domain are modelled by
the `EFloat` type below.  Display rounding (`round(x, n)`) and the exact text
of echoed lines are out-of-scope formatting per §1 of the spec; the outputs
modelled are the values printed.
-/

/-- A calendar date, as Python's `datetime.date`: year, month, day. -/
structure CalendarDate where
  year : ℕ
  month : ℕ
  day : ℕ
deriving DecidableEq, Repr

/-- Gregorian leap-year rule, as in `calendar.isleap`. -/
def isLeapYear (y : ℕ) : Bool :=
  (y % 4 == 0 && y % 100 != 0) || (y % 400 == 0)

/-- Number of days of month `m` (1–12) in year `y`. -/
def daysInMonth (y m : ℕ) : ℕ :=
  if m = 2 then (if isLeapYear y then 29 else 28)
  else if m = 4 ∨ m = 6 ∨ m = 9 ∨ m = 11 then 30
  else 31

/-- Days of year `y` that lie strictly before month `m` (for `m` in 1–12). -/
def daysBeforeMonth (y m : ℕ) : ℕ :=
  let l : ℕ := if isLeapYear y then 1 else 0
  match m with
  | 1 => 0
  | 2 => 31
  | 3 => 59 + l
  | 4 => 90 + l
  | 5 => 120 + l
  | 6 => 151 + l
  | 7 => 181 + l
  | 8 => 212 + l
  | 9 => 243 + l
  | 10 => 273 + l
  | 11 => 304 + l
  | _ => 334 + l

/-- Days in the proleptic Gregorian calendar strictly before year `y`
(counting from year 1, as `datetime.date.toordinal` does): every year from
1 up to `y - 1` contributes 365 or 366 days according to the leap rule. -/
def daysBeforeYear : ℕ → ℕ
  | 0 => 0
  | y + 1 => daysBeforeYear y + (if y = 0 then 0 else 365 + (if isLeapYear y then 1 else 0))

/-- Ordinal day number of a date (0 for year 1, January 1), mirroring
`datetime.date.toordinal` up to the constant offset. -/
def toDays (d : CalendarDate) : ℕ :=
  daysBeforeYear d.year + daysBeforeMonth d.year d.month + (d.day - 1)

/-- Validity of a calendar date: the invariant Python's `datetime.date`
constructor enforces. -/
def CalendarDate.Valid (d : CalendarDate) : Prop :=
  1 ≤ d.year ∧ 1 ≤ d.month ∧ d.month ≤ 12 ∧ 1 ≤ d.day ∧ d.day ≤ daysInMonth d.year d.month

instance (d : CalendarDate) : Decidable d.Valid := by
  unfold CalendarDate.Valid; infer_instance

/-- Strict calendar order on dates (lexicographic on year, month, day),
as Python's `date` comparison. -/
def CalendarDate.lt (a b : CalendarDate) : Prop :=
  a.year < b.year ∨ (a.year = b.year ∧ (a.month < b.month ∨ (a.month = b.month ∧ a.day < b.day)))

instance (a b : CalendarDate) : Decidable (CalendarDate.lt a b) := by
  unfold CalendarDate.lt; infer_instance

/-- Non-strict calendar order on dates. -/
def CalendarDate.le (a b : CalendarDate) : Prop :=
  CalendarDate.lt a b ∨ a = b

instance (a b : CalendarDate) : Decidable (CalendarDate.le a b) := by
  unfold CalendarDate.le; infer_instance

/-- The day after `d` (as Python's `date + timedelta(days=1)`). -/
def nextDay (d : CalendarDate) : CalendarDate :=
  if d.day < daysInMonth d.year d.month then ⟨d.year, d.month, d.day + 1⟩
  else if d.month < 12 then ⟨d.year, d.month + 1, 1⟩
  else ⟨d.year + 1, 1, 1⟩

/-- The day before `d` (as Python's `date - timedelta(days=1)`). -/
def prevDay (d : CalendarDate) : CalendarDate :=
  if 1 < d.day then ⟨d.year, d.month, d.day - 1⟩
  else if 1 < d.month then ⟨d.year, d.month - 1, daysInMonth d.year (d.month - 1)⟩
  else ⟨d.year - 1, 12, 31⟩

/-- `d + timedelta(days=k)` for a possibly negative number of days `k`. -/
def addDays (d : CalendarDate) (k : ℤ) : CalendarDate :=
  if 0 ≤ k then nextDay^[k.toNat] d else prevDay^[(-k).toNat] d

/-- The anniversary of date `b` after `k` more years: same month, same day,
clipped to the length of that month (February 29 falls back to February 28
in a common year), the usual calendar convention for adding years. -/
def anniversary (b : CalendarDate) (k : ℕ) : CalendarDate :=
  ⟨b.year + k, b.month, min b.day (daysInMonth (b.year + k) b.month)⟩

/-- The number of completed calendar years from `b` to `o` (for `b ≤ o`):
the year difference, minus one when the anniversary in the observation year
has not yet been reached. -/
def completedYears (b o : CalendarDate) : ℕ :=
  if toDays (anniversary b (o.year - b.year)) ≤ toDays o then o.year - b.year
  else o.year - b.year - 1

/-- Decimal age for the case `toDays b ≤ toDays o`: completed years, plus
days since the last anniversary over the length of the anniversary year. -/
def decimalAgeNonneg (b o : CalendarDate) : ℚ :=
  (completedYears b o : ℚ) +
    ((toDays o - toDays (anniversary b (completedYears b o)) : ℕ) : ℚ) /
      ((toDays (anniversary b (completedYears b o + 1)) - toDays (anniversary b (completedYears b o)) : ℕ) : ℚ)

/-- Modelled from the spec: `rcpchgrowth.date_calculations.chronological_decimal_age`
(the library itself is not under `src/`).  Per §4.1 it returns the elapsed
time from `birth_date` to `observation_date` as a fraction of a year with
calendar semantics: the number of completed calendar years plus the fraction
of the current anniversary year that has elapsed.  An observation before
birth yields the negated age of the swapped pair, preserving sign. -/
def chronological_decimal_age (birth_date observation_date : CalendarDate) : ℚ :=
  if toDays observation_date < toDays birth_date then
    - decimalAgeNonneg observation_date birth_date
  else
    decimalAgeNonneg birth_date observation_date

/-- Calendar-age decomposition for `b ≤ o`: successive calendar subtraction
of (year, month, day) with borrowing from the next coarser unit, the days
borrow taking the length of the month preceding the observation month. -/
def calendarDecomp (b o : CalendarDate) : ℤ × ℤ × ℤ :=
  let d0 : ℤ := (o.day : ℤ) - (b.day : ℤ)
  let m0 : ℤ := (o.month : ℤ) - (b.month : ℤ)
  let y0 : ℤ := (o.year : ℤ) - (b.year : ℤ)
  let borrowDays : ℤ :=
    if o.month = 1 then (daysInMonth (o.year - 1) 12 : ℤ) else (daysInMonth o.year (o.month - 1) : ℤ)
  let p1 := if d0 < 0 then (d0 + borrowDays, m0 - 1) else (d0, m0)
  let p2 := if p1.2 < 0 then (p1.2 + 12, y0 - 1) else (p1.2, y0)
  (p2.2, p2.1, p1.1)

/-- Modelled from the spec: `rcpchgrowth.date_calculations.chronological_calendar_age`
(the library itself is not under `src/`).  Per §4.1 it decomposes the elapsed
time into whole years, months and days by successive calendar subtraction,
borrowing from the next coarser unit when a component would be negative, with
the sign preserved when the observation precedes the birth date. -/
def chronological_calendar_age (birth_date observation_date : CalendarDate) : ℤ × ℤ × ℤ :=
  if CalendarDate.lt observation_date birth_date then
    let t := calendarDecomp observation_date birth_date
    (-t.1, -t.2.1, -t.2.2)
  else
    calendarDecomp birth_date observation_date

/-- Errors of the calculation layer (spec §7); `referenceData` stands for the
engine's `ReferenceDataUnavailable`. -/
inductive GrowthError where
  | validation
  | referenceData
deriving DecidableEq, Repr

/-- Modelled from the spec: the clinically valid gestation range of §4.2 —
weeks in 22–44 and days in 0–6 (the CLI's `click.INT` arguments may be
negative, hence integer inputs). -/
def validGestation (gestation_weeks gestation_days : ℤ) : Prop :=
  22 ≤ gestation_weeks ∧ gestation_weeks ≤ 44 ∧ 0 ≤ gestation_days ∧ gestation_days ≤ 6

instance (gw gd : ℤ) : Decidable (validGestation gw gd) := by
  unfold validGestation; infer_instance

/-- Modelled from the spec: `rcpchgrowth.date_calculations.estimated_date_delivery`
(the library itself is not under `src/`).  Per §4.2 it advances `birth_date`
by `(40 weeks + 0 days) − (gestation_weeks, gestation_days)` and rejects
gestations outside the clinical bounds with a validation error. -/
def estimated_date_delivery (birth_date : CalendarDate) (gestation_weeks gestation_days : ℤ) :
    Except GrowthError CalendarDate :=
  if validGestation gestation_weeks gestation_days then
    .ok (addDays birth_date (280 - (7 * gestation_weeks + gestation_days)))
  else
    .error .validation

/-- Modelled from the spec: `rcpchgrowth.date_calculations.corrected_decimal_age`
(the library itself is not under `src/`).  Per §4.1 it is the chronological
decimal age computed against the gestation-corrected birth date of §4.2. -/
def corrected_decimal_age (birth_date observation_date : CalendarDate)
    (gestation_weeks gestation_days : ℤ) : Except GrowthError ℚ :=
  (estimated_date_delivery birth_date gestation_weeks gestation_days).map
    (fun corrected => chronological_decimal_age corrected observation_date)

/-- What the `age-calculation` command prints: the decimal age and the
calendar-age breakdown (years, months, days). -/
structure AgeOutput where
  decimalAge : ℚ
  calendarAge : ℤ × ℤ × ℤ
deriving DecidableEq, Repr

/-- The `age_calculation` command of `rcpchgrowth_python_cli/__main__.py`:
with the adjustment flag it prints `corrected_decimal_age` and the calendar
age of the corrected birth date (`estimated_date_delivery`); without it, the
chronological values for the actual birth date. -/
def age_calculation (birth_date observation_date : CalendarDate)
    (gestation_weeks gestation_days : ℤ) (adjustment : Bool) :
    Except GrowthError AgeOutput :=
  if adjustment then do
    let decimal_age ← corrected_decimal_age birth_date observation_date gestation_weeks gestation_days
    let corrected_birth_date ← estimated_date_delivery birth_date gestation_weeks gestation_days
    pure ⟨decimal_age, chronological_calendar_age corrected_birth_date observation_date⟩
  else
    pure ⟨chronological_decimal_age birth_date observation_date,
          chronological_calendar_age birth_date observation_date⟩

/-- The `age_calculation` command of the legacy `cli/__main__.py`: with the
adjustment flag it prints `corrected_decimal_age` but computes the calendar
age from the ACTUAL birth date, not the corrected one. -/
def age_calculation_legacy (birth_date observation_date : CalendarDate)
    (gestation_weeks gestation_days : ℤ) (adjustment : Bool) :
    Except GrowthError AgeOutput :=
  if adjustment then do
    let decimal_age ← corrected_decimal_age birth_date observation_date gestation_weeks gestation_days
    pure ⟨decimal_age, chronological_calendar_age birth_date observation_date⟩
  else
    pure ⟨chronological_decimal_age birth_date observation_date,
          chronological_calendar_age birth_date observation_date⟩

/-- A Python float as the measurement pipeline sees it: a finite rational,
an infinity (what `scipy.stats.norm.ppf` returns at 0 and 1), or NaN. -/
inductive EFloat where
  | val : ℚ → EFloat
  | posInf
  | negInf
  | nan
deriving DecidableEq, Repr

/-- Modelled from the spec: `scipy.stats.norm.ppf`, the standard normal
inverse CDF Φ⁻¹ used by `measurement_for_centile`.  Its finite values are
transcendental, so they are abstracted as a parameter `fin`; at the domain
boundaries the inverse diverges (`ppf 0 = -inf`, `ppf 1 = +inf`) and outside
[0, 1] the result is NaN, exactly as scipy computes. -/
def normPpf (fin : ℚ → ℚ) (p : ℚ) : EFloat :=
  if p = 0 then .negInf
  else if p = 1 then .posInf
  else if 0 < p ∧ p < 1 then .val (fin p)
  else .nan

/-- The external statistical engine's `measurement_from_sds`
(`rcpchgrowth.global_functions`): reference, requested SDS, measurement
method, sex, age — returning a measurement or an engine error.  The engine
is an external collaborator (spec §6), so commands are parametric in it. -/
def MfsEngine : Type :=
  String → EFloat → String → String → ℚ → Except GrowthError EFloat

/-- `reference_to_string` of `rcpchgrowth_python_cli/__main__.py`: maps a
reference key to its display name, with a fallback for anything else. -/
def reference_to_string (reference : String) : String :=
  if reference = "uk-who" then "UK-WHO"
  else if reference = "turners-syndrome" then "Turner's Syndrome"
  else if reference = "trisomy-21" then "Trisomy 21/Down's Syndrome"
  else "Reference error."

/-- The unit suffix logic inlined in `measurement_for_centile` and
`measurement_for_sds`: default `"cm"`, overridden for weight and bmi. -/
def measurementSuffix (measurement_method : String) : String :=
  if measurement_method = "weight" then "kg"
  else if measurement_method = "bmi" then "kg/m2"
  else "cm"

/-- What a measurement-producing command prints: the reference display name,
the measurement value, and its unit suffix. -/
structure MeasurementOutput where
  referenceDisplay : String
  measurement : EFloat
  suffix : String
deriving DecidableEq, Repr

/-- The `measurement_for_centile` command of
`rcpchgrowth_python_cli/__main__.py`: converts the centile to an SDS with
`stats.norm.ppf(centile / 100)` — with no validation of the centile — and
asks the engine for the measurement at that SDS. -/
def measurement_for_centile (fin : ℚ → ℚ) (mfs : MfsEngine)
    (reference measurement_method sex : String) (decimal_age centile : ℚ) :
    Except GrowthError MeasurementOutput := do
  let sds := normPpf fin (centile / 100)
  let result ← mfs reference sds measurement_method sex decimal_age
  pure ⟨reference_to_string reference, result, measurementSuffix measurement_method⟩

/-- The `measurement_for_sds` command of
`rcpchgrowth_python_cli/__main__.py`: asks the engine for the measurement at
the given SDS directly. -/
def measurement_for_sds (mfs : MfsEngine)
    (reference measurement_method sex : String) (decimal_age : ℚ) (sds : EFloat) :
    Except GrowthError MeasurementOutput := do
  let result ← mfs reference sds measurement_method sex decimal_age
  pure ⟨reference_to_string reference, result, measurementSuffix measurement_method⟩

/-- Modelled from the spec: the valid range for a parental height in
`mid_parental_height` — §4.4 rejects heights that are non-positive or
implausible, outside roughly 100–250 cm. -/
def heightInRange (h : ℚ) : Prop := 100 ≤ h ∧ h ≤ 250

instance (h : ℚ) : Decidable (heightInRange h) := by
  unfold heightInRange; infer_instance

/-- Modelled from the spec: `rcpchgrowth.global_functions.mid_parental_height`
(the library itself is not under `src/`).  Per §4.4: for a male child
`(maternal + paternal + 13) / 2`, for a female child
`(maternal + paternal − 13) / 2`, with a validation error when either height
is out of range or the sex is not a recognised value. -/
def mid_parental_height (height_maternal height_paternal : ℚ) (sex : String) :
    Except GrowthError ℚ :=
  if heightInRange height_maternal ∧ heightInRange height_paternal then
    if sex = "male" then .ok ((height_maternal + height_paternal + 13) / 2)
    else if sex = "female" then .ok ((height_maternal + height_paternal - 13) / 2)
    else .error .validation
  else .error .validation

/-- The observable outcome of running the `midparental_height` command:
the numeric result echoed (if any), the error message echoed (if any), and
the process exit code. -/
structure CommandOutcome where
  printedResult : Option ℚ
  printedError : Option GrowthError
  exitCode : ℕ
deriving DecidableEq, Repr

/-- The `midparental_height` command of `rcpchgrowth_python_cli/__main__.py`:
it wraps `mid_parental_height` in `try/except`; on an exception the command
RETURNS the string `f"Error: {e}"` instead of echoing it — click discards a
command callback's return value, so nothing is printed and the process still
exits 0.  On success it echoes the rounded result (display rounding omitted
here as formatting) and also exits 0. -/
def midparental_height (maternal_height paternal_height : ℚ) (sex : String) :
    CommandOutcome :=
  match mid_parental_height maternal_height paternal_height sex with
  | .error _e => ⟨none, none, 0⟩
  | .ok result => ⟨some result, none, 0⟩

/-! ### Arithmetic facts about the calendar embedding -/

theorem isLeapYear_spec (y : ℕ) :
    isLeapYear y = true ↔ ((y % 4 = 0 ∧ y % 100 ≠ 0) ∨ y % 400 = 0) := by
  simp [isLeapYear]

theorem daysBeforeYear_succ (y : ℕ) (hy : 1 ≤ y) :
    daysBeforeYear (y + 1) = daysBeforeYear y + 365 + (if isLeapYear y then 1 else 0) := by
  have hne : ¬ y = 0 := by omega
  simp only [daysBeforeYear, hne, if_false]
  omega

theorem daysBeforeYear_mono {y1 y2 : ℕ} (h : y1 ≤ y2) :
    daysBeforeYear y1 ≤ daysBeforeYear y2 := by
  induction y2 with
  | zero =>
      have h0 : y1 = 0 := by omega
      simp [h0]
  | succ n ih =>
      rcases Nat.lt_or_ge y1 (n + 1) with hlt | hge
      · exact le_trans (ih (by omega)) (by simp only [daysBeforeYear]; omega)
      · have heq : y1 = n + 1 := by omega
        simp [heq]

theorem daysInMonth_pos (y m : ℕ) : 1 ≤ daysInMonth y m := by
  unfold daysInMonth
  split
  · split <;> omega
  · split <;> omega

theorem dbm_day_lt (y m day : ℕ) (h1 : 1 ≤ m) (h2 : m ≤ 12) (h4 : day ≤ daysInMonth y m) :
    daysBeforeMonth y m + (day - 1) < 365 + (if isLeapYear y then 1 else 0) := by
  cases hb : isLeapYear y <;>
    interval_cases m <;>
      simp [daysBeforeMonth, daysInMonth, hb] at h4 ⊢ <;> omega

theorem dbm_mono (y m1 m2 d1 : ℕ) (h1 : 1 ≤ m1) (hlt : m1 < m2) (h2 : m2 ≤ 12)
    (hd : d1 ≤ daysInMonth y m1) :
    daysBeforeMonth y m1 + d1 ≤ daysBeforeMonth y m2 := by
  have hm1 : m1 ≤ 11 := by omega
  cases hb : isLeapYear y <;>
    interval_cases m1 <;> interval_cases m2 <;>
      simp [daysBeforeMonth, daysInMonth, hb] at hd ⊢ <;> omega

theorem toDays_lt_of_year_lt {d1 d2 : CalendarDate} (v1 : d1.Valid) (v2 : d2.Valid)
    (h : d1.year < d2.year) : toDays d1 < toDays d2 := by
  obtain ⟨hy1, hm1a, hm1b, hd1a, hd1b⟩ := v1
  obtain ⟨hy2, hm2a, hm2b, hd2a, hd2b⟩ := v2
  have hoff : daysBeforeMonth d1.year d1.month + (d1.day - 1)
      < 365 + (if isLeapYear d1.year then 1 else 0) :=
    dbm_day_lt d1.year d1.month d1.day hm1a hm1b hd1b
  have hstep : daysBeforeYear (d1.year + 1)
      = daysBeforeYear d1.year + 365 + (if isLeapYear d1.year then 1 else 0) :=
    daysBeforeYear_succ d1.year hy1
  have hmono : daysBeforeYear (d1.year + 1) ≤ daysBeforeYear d2.year :=
    daysBeforeYear_mono (by omega)
  unfold toDays
  omega

theorem toDays_lt_of_lt {d1 d2 : CalendarDate} (v1 : d1.Valid) (v2 : d2.Valid)
    (h : CalendarDate.lt d1 d2) : toDays d1 < toDays d2 := by
  rcases h with hy | ⟨hy, hm | ⟨hm, hd⟩⟩
  · exact toDays_lt_of_year_lt v1 v2 hy
  · obtain ⟨hy1, hm1a, hm1b, hd1a, hd1b⟩ := v1
    obtain ⟨hy2, hm2a, hm2b, hd2a, hd2b⟩ := v2
    have hmm : daysBeforeMonth d1.year d1.month + d1.day ≤ daysBeforeMonth d1.year d2.month :=
      dbm_mono d1.year d1.month d2.month d1.day hm1a hm (by omega) hd1b
    have hby : daysBeforeYear d1.year = daysBeforeYear d2.year := by rw [hy]
    have hbm : daysBeforeMonth d1.year d2.month = daysBeforeMonth d2.year d2.month := by rw [hy]
    unfold toDays
    omega
  · obtain ⟨hy1, hm1a, hm1b, hd1a, hd1b⟩ := v1
    have hby : daysBeforeYear d1.year = daysBeforeYear d2.year := by rw [hy]
    have hbm : daysBeforeMonth d1.year d1.month = daysBeforeMonth d2.year d2.month := by
      rw [hy, hm]
    unfold toDays
    omega

theorem toDays_le_of_le {d1 d2 : CalendarDate} (v1 : d1.Valid) (v2 : d2.Valid)
    (h : CalendarDate.le d1 d2) : toDays d1 ≤ toDays d2 := by
  rcases h with hlt | heq
  · exact le_of_lt (toDays_lt_of_lt v1 v2 hlt)
  · rw [heq]

theorem anniversary_valid {b : CalendarDate} (v : b.Valid) (k : ℕ) :
    (anniversary b k).Valid := by
  obtain ⟨hy, hma, hmb, hda, hdb⟩ := v
  refine ⟨by simp [anniversary]; omega, by simpa [anniversary] using hma,
    by simpa [anniversary] using hmb, ?_, ?_⟩
  · have := daysInMonth_pos (b.year + k) b.month
    simp [anniversary]
    omega
  · simp [anniversary]

theorem anniversary_zero {b : CalendarDate} (v : b.Valid) : anniversary b 0 = b := by
  obtain ⟨hy, hma, hmb, hda, hdb⟩ := v
  cases b with
  | mk y m d =>
      simp only [anniversary, Nat.add_zero]
      congr 1
      simp at hdb ⊢
      omega

theorem anniversary_toDays_lt {b : CalendarDate} (v : b.Valid) (k : ℕ) :
    toDays (anniversary b k) < toDays (anniversary b (k + 1)) := by
  refine toDays_lt_of_year_lt (anniversary_valid v k) (anniversary_valid v (k + 1)) ?_
  simp [anniversary]

theorem decimalAgeNonneg_nonneg (b o : CalendarDate) : 0 ≤ decimalAgeNonneg b o := by
  unfold decimalAgeNonneg
  exact add_nonneg (Nat.cast_nonneg _) (div_nonneg (Nat.cast_nonneg _) (Nat.cast_nonneg _))

theorem decimalAgeNonneg_pos {b o : CalendarDate} (vb : b.Valid)
    (h : toDays b < toDays o) : 0 < decimalAgeNonneg b o := by
  have hfrac : 0 ≤ ((toDays o - toDays (anniversary b (completedYears b o)) : ℕ) : ℚ) /
      ((toDays (anniversary b (completedYears b o + 1))
        - toDays (anniversary b (completedYears b o)) : ℕ) : ℚ) :=
    div_nonneg (Nat.cast_nonneg _) (Nat.cast_nonneg _)
  rcases Nat.eq_zero_or_pos (completedYears b o) with h0 | hpos
  · unfold decimalAgeNonneg
    rw [h0]
    have hden : toDays (anniversary b 0) < toDays (anniversary b (0 + 1)) :=
      anniversary_toDays_lt vb 0
    rw [anniversary_zero vb] at hden ⊢
    have hnum : 0 < ((toDays o - toDays b : ℕ) : ℚ) := by
      have hsub : 0 < toDays o - toDays b := by omega
      exact_mod_cast hsub
    have hden2 : 0 < ((toDays (anniversary b (0 + 1)) - toDays b : ℕ) : ℚ) := by
      have hsub : 0 < toDays (anniversary b (0 + 1)) - toDays b := by omega
      exact_mod_cast hsub
    have hdiv := div_pos hnum hden2
    simp only [Nat.cast_zero, zero_add]
    exact hdiv
  · unfold decimalAgeNonneg
    have h1 : (1 : ℚ) ≤ (completedYears b o : ℚ) := by exact_mod_cast hpos
    linarith

theorem decimalAgeNonneg_self {d : CalendarDate} (v : d.Valid) : decimalAgeNonneg d d = 0 := by
  have hce : completedYears d d = 0 := by
    unfold completedYears
    rw [Nat.sub_self, anniversary_zero v]
    simp
  unfold decimalAgeNonneg
  rw [hce, anniversary_zero v, Nat.sub_self]
  simp

/-! ### Claims -/

/-- C8: for all valid Gregorian dates, `chronological_decimal_age` is a total
function (never an error); it is nonnegative when the first date is not after
the second, exactly zero on equal dates, and negative — not an error — when
the observation date precedes the birth date. -/
theorem chronological_decimal_age_sign (d1 d2 : CalendarDate)
    (v1 : d1.Valid) (v2 : d2.Valid) :
    (CalendarDate.le d1 d2 → 0 ≤ chronological_decimal_age d1 d2) ∧
    (d1 = d2 → chronological_decimal_age d1 d2 = 0) ∧
    (CalendarDate.lt d2 d1 → chronological_decimal_age d1 d2 < 0) := by
  refine ⟨?_, ?_, ?_⟩
  · intro hle
    have hd := toDays_le_of_le v1 v2 hle
    unfold chronological_decimal_age
    rw [if_neg (by omega)]
    exact decimalAgeNonneg_nonneg d1 d2
  · intro heq
    subst heq
    unfold chronological_decimal_age
    rw [if_neg (lt_irrefl _)]
    exact decimalAgeNonneg_self v1
  · intro hlt
    have hts := toDays_lt_of_lt v2 v1 hlt
    unfold chronological_decimal_age
    rw [if_pos hts]
    have hpos := decimalAgeNonneg_pos v2 hts
    linarith

/-- C8 witness: a concrete instance of the sign property at 2020-01-01 and
2020-01-02. -/
theorem chronological_decimal_age_sign_witness :
    0 ≤ chronological_decimal_age ⟨2020, 1, 1⟩ ⟨2020, 1, 2⟩ :=
  (chronological_decimal_age_sign ⟨2020, 1, 1⟩ ⟨2020, 1, 2⟩ (by decide) (by decide)).1 (by decide)

/-- C1 (amended): in the packaged entry point `rcpchgrowth_python_cli`, an
adjusted age calculation computes both the decimal age and the calendar-age
breakdown against the gestation-corrected birth date; in the legacy `cli`
iteration only the decimal age is corrected — its calendar breakdown is
computed against the actual birth date. -/
theorem age_calculation_adjusted_dates (b o : CalendarDate) (gw gd : ℤ) :
    age_calculation b o gw gd true
      = (estimated_date_delivery b gw gd).map
          (fun corrected =>
            ⟨chronological_decimal_age corrected o, chronological_calendar_age corrected o⟩) ∧
    age_calculation_legacy b o gw gd true
      = (estimated_date_delivery b gw gd).map
          (fun corrected =>
            ⟨chronological_decimal_age corrected o, chronological_calendar_age b o⟩) := by
  unfold age_calculation age_calculation_legacy corrected_decimal_age
  cases hedd : estimated_date_delivery b gw gd <;>
    simp [Except.map, Except.bind, bind, pure, Except.pure]

set_option maxRecDepth 8192 in
/-- C1 counterexample: for birth 2020-01-01, observation 2021-01-01 and
gestation 30+0, the legacy command's adjusted calendar breakdown (1 year,
0 months, 0 days, from the actual birth date) differs from the breakdown
against the corrected birth date 2020-03-11 (0 years, 9 months, 21 days). -/
theorem age_calculation_legacy_cex :
    (age_calculation_legacy ⟨2020, 1, 1⟩ ⟨2021, 1, 1⟩ 30 0 true).map AgeOutput.calendarAge
      ≠ (estimated_date_delivery ⟨2020, 1, 1⟩ 30 0).map
          (fun corrected => chronological_calendar_age corrected ⟨2021, 1, 1⟩) := by
  have h1 : (age_calculation_legacy ⟨2020, 1, 1⟩ ⟨2021, 1, 1⟩ 30 0 true).map AgeOutput.calendarAge
      = .ok (1, 0, 0) := rfl
  have h2 : (estimated_date_delivery ⟨2020, 1, 1⟩ 30 0).map
      (fun corrected => chronological_calendar_age corrected ⟨2021, 1, 1⟩) = .ok (0, 9, 21) := rfl
  rw [h1, h2]
  intro h
  injection h with h
  simp at h

/-- C6: an adjusted age calculation whose gestation lies outside the clinical
bounds (weeks below 22 or above 44, days outside 0–6) is rejected with a
validation error instead of producing a corrected age. -/
theorem age_calculation_gestation_rejected (b o : CalendarDate) (gw gd : ℤ)
    (h : gw < 22 ∨ 44 < gw ∨ gd < 0 ∨ 6 < gd) :
    age_calculation b o gw gd true = .error .validation := by
  have hnv : ¬ validGestation gw gd := by unfold validGestation; omega
  simp [age_calculation, corrected_decimal_age, estimated_date_delivery, hnv,
    Except.map, Except.bind, bind]

/-- C6 witness: gestation of 50 weeks is rejected. -/
theorem age_calculation_gestation_rejected_witness :
    age_calculation ⟨2020, 1, 1⟩ ⟨2021, 1, 1⟩ 50 0 true = .error .validation :=
  age_calculation_gestation_rejected ⟨2020, 1, 1⟩ ⟨2021, 1, 1⟩ 50 0 (by omega)

/-- C7: at full term (gestation 40 weeks, 0 days) the estimated date of
delivery is the birth date itself, so an adjusted age calculation at
full term prints exactly the chronological values. -/
theorem estimated_date_delivery_full_term (b o : CalendarDate) (hv : b.Valid) :
    estimated_date_delivery b 40 0 = .ok b ∧
    age_calculation b o 40 0 true
      = .ok ⟨chronological_decimal_age b o, chronological_calendar_age b o⟩ := by
  have h0 : addDays b 0 = b := by
    simp [addDays]
  have h1 : estimated_date_delivery b 40 0 = .ok b := by
    unfold estimated_date_delivery
    rw [if_pos (by unfold validGestation; omega)]
    norm_num [h0]
  refine ⟨h1, ?_⟩
  simp [age_calculation, corrected_decimal_age, h1, Except.map, Except.bind, bind, pure,
    Except.pure]

/-- C7 witness: the full-term identity at birth date 2020-01-01. -/
theorem estimated_date_delivery_full_term_witness :
    estimated_date_delivery ⟨2020, 1, 1⟩ 40 0 = .ok ⟨2020, 1, 1⟩ ∧
    age_calculation ⟨2020, 1, 1⟩ ⟨2021, 1, 1⟩ 40 0 true
      = .ok ⟨chronological_decimal_age ⟨2020, 1, 1⟩ ⟨2021, 1, 1⟩,
             chronological_calendar_age ⟨2020, 1, 1⟩ ⟨2021, 1, 1⟩⟩ :=
  estimated_date_delivery_full_term ⟨2020, 1, 1⟩ ⟨2021, 1, 1⟩ (by decide)

/-- C2: for a centile in (0, 100), the `measurement_for_centile` command and
the `measurement_for_sds` command invoked with sds = Φ⁻¹(centile/100) produce
identical output — both compose the same `measurement_from_sds` conversion,
for every engine and every inverse-CDF implementation. -/
theorem measurement_for_centile_eq_sds (fin : ℚ → ℚ) (mfs : MfsEngine)
    (reference measurement_method sex : String) (decimal_age centile : ℚ)
    (h1 : 0 < centile) (h2 : centile < 100) :
    measurement_for_centile fin mfs reference measurement_method sex decimal_age centile
      = measurement_for_sds mfs reference measurement_method sex decimal_age
          (normPpf fin (centile / 100)) := rfl

/-- C2 witness: the agreement at centile 50 with an echo engine. -/
theorem measurement_for_centile_eq_sds_witness :
    measurement_for_centile id (fun _ s _ _ _ => Except.ok s) "uk-who" "height" "male" 1 50
      = measurement_for_sds (fun _ s _ _ _ => Except.ok s) "uk-who" "height" "male" 1
          (normPpf id (50 / 100)) :=
  measurement_for_centile_eq_sds id (fun _ s _ _ _ => Except.ok s) "uk-who" "height" "male" 1 50
    (by norm_num) (by norm_num)

/-- C4 counterexample: at centile 0 (respectively 100) the command raises no
domain error — it produces an ordinary result after passing the infinite SDS
Φ⁻¹(0) = −∞ (respectively +∞) straight to the engine, as exhibited with an
engine that echoes the SDS it receives. -/
theorem measurement_for_centile_boundary_cex :
    measurement_for_centile id (fun _ s _ _ _ => Except.ok s) "uk-who" "height" "male" 1 0
      = .ok ⟨"UK-WHO", .negInf, "cm"⟩ ∧
    measurement_for_centile id (fun _ s _ _ _ => Except.ok s) "uk-who" "height" "male" 1 100
      = .ok ⟨"UK-WHO", .posInf, "cm"⟩ := by
  constructor <;>
  · norm_num [measurement_for_centile, normPpf, Except.bind, bind, pure, Except.pure,
      reference_to_string, measurementSuffix]
    decide

/-- C4 (amended): the command performs no centile validation of its own — at
the boundary centiles 0 and 100 it forwards the infinite SDS to
`measurement_from_sds`, so the outcome is whatever the engine returns and no
`ArithmeticDomainError` is reported by the CLI layer. -/
theorem measurement_for_centile_boundary (fin : ℚ → ℚ) (mfs : MfsEngine)
    (reference measurement_method sex : String) (decimal_age : ℚ) :
    measurement_for_centile fin mfs reference measurement_method sex decimal_age 0
      = measurement_for_sds mfs reference measurement_method sex decimal_age .negInf ∧
    measurement_for_centile fin mfs reference measurement_method sex decimal_age 100
      = measurement_for_sds mfs reference measurement_method sex decimal_age .posInf := by
  constructor <;>
  · unfold measurement_for_centile measurement_for_sds normPpf
    norm_num

/-- C3: within the valid height range, `mid_parental_height` computes
(maternal + paternal + 13) / 2 for a male child and
(maternal + paternal − 13) / 2 for a female child. -/
theorem mid_parental_height_formula (height_maternal height_paternal : ℚ)
    (hm : 100 ≤ height_maternal ∧ height_maternal ≤ 250)
    (hp : 100 ≤ height_paternal ∧ height_paternal ≤ 250) :
    mid_parental_height height_maternal height_paternal "male"
      = .ok ((height_maternal + height_paternal + 13) / 2) ∧
    mid_parental_height height_maternal height_paternal "female"
      = .ok ((height_maternal + height_paternal - 13) / 2) := by
  obtain ⟨hm1, hm2⟩ := hm
  obtain ⟨hp1, hp2⟩ := hp
  simp [mid_parental_height, heightInRange, hm1, hm2, hp1, hp2]

/-- C3 witness: the spec's worked example, (170 + 180 + 13) / 2 = 181.5 and
(170 + 180 − 13) / 2 = 168.5. -/
theorem mid_parental_height_formula_witness :
    mid_parental_height 170 180 "male" = .ok ((170 + 180 + 13) / 2) ∧
    mid_parental_height 170 180 "female" = .ok ((170 + 180 - 13) / 2) :=
  mid_parental_height_formula 170 180 (by norm_num) (by norm_num)

/-- C5 counterexample: for a negative maternal height the command prints no
numeric result, but it also surfaces no error message and exits with code 0
— the caught exception's message is only the callback's discarded return
value. -/
theorem midparental_height_cmd_cex :
    midparental_height (-5) 180 "male" = ⟨none, none, 0⟩ := by rfl

/-- C5 (amended): a non-positive height makes `mid_parental_height` fail
validation, and the command then produces no numeric output — but the error
is not echoed to the user and the process exits zero, because the command
returns the message instead of echoing it and click discards the return
value. -/
theorem midparental_height_error_swallowed (maternal paternal : ℚ) (sex : String)
    (h : maternal ≤ 0 ∨ paternal ≤ 0) :
    midparental_height maternal paternal sex = ⟨none, none, 0⟩ := by
  have hcond : ¬ (heightInRange maternal ∧ heightInRange paternal) := by
    unfold heightInRange
    rcases h with h | h
    · intro hc; linarith [hc.1.1]
    · intro hc; linarith [hc.2.1]
  unfold midparental_height mid_parental_height
  rw [if_neg hcond]

/-- C5 witness: the silent outcome at maternal height 0. -/
theorem midparental_height_error_swallowed_witness :
    midparental_height 0 180 "female" = ⟨none, none, 0⟩ :=
  midparental_height_error_swallowed 0 180 "female" (Or.inl (by norm_num))

/-- C9 (amended): the unit suffix printed by both measurement commands is a
function of the measurement method alone — the reference enters the suffix
computation nowhere — and its values are "cm" for height and ofc, "kg" for
weight, and the ASCII string "kg/m2" for bmi. -/
theorem measurement_suffix_by_method (fin : ℚ → ℚ) (mfs : MfsEngine)
    (reference measurement_method sex : String) (decimal_age centile : ℚ) (sds : EFloat) :
    (measurement_for_centile fin mfs reference measurement_method sex decimal_age centile).map
        MeasurementOutput.suffix
      = (mfs reference (normPpf fin (centile / 100)) measurement_method sex decimal_age).map
          (fun _ => measurementSuffix measurement_method) ∧
    (measurement_for_sds mfs reference measurement_method sex decimal_age sds).map
        MeasurementOutput.suffix
      = (mfs reference sds measurement_method sex decimal_age).map
          (fun _ => measurementSuffix measurement_method) ∧
    measurementSuffix "height" = "cm" ∧ measurementSuffix "ofc" = "cm" ∧
    measurementSuffix "weight" = "kg" ∧ measurementSuffix "bmi" = "kg/m2" := by
  refine ⟨?_, ?_, rfl, rfl, rfl, rfl⟩
  · unfold measurement_for_centile
    cases hres : mfs reference (normPpf fin (centile / 100)) measurement_method sex decimal_age <;>
      simp [hres, Except.map, Except.bind, bind, pure, Except.pure]
  · unfold measurement_for_sds
    cases hres : mfs reference sds measurement_method sex decimal_age <;>
      simp [hres, Except.map, Except.bind, bind, pure, Except.pure]

/-- C9 counterexample: for bmi the suffix the command actually prints is the
ASCII "kg/m2", which is not the claimed "kg/m²". -/
theorem bmi_suffix_cex :
    measurement_for_sds (fun _ s _ _ _ => Except.ok s) "uk-who" "bmi" "male" 1 (.val 0)
      = .ok ⟨"UK-WHO", .val 0, "kg/m2"⟩ ∧ "kg/m2" ≠ "kg/m²" := by
  constructor
  · rfl
  · decide

/-- C10: on each of the three reference keys the CLI accepts,
`reference_to_string` yields the matching display name and never the
fallback "Reference error.". -/
theorem reference_to_string_display (reference : String)
    (h : reference = "uk-who" ∨ reference = "trisomy-21" ∨ reference = "turners-syndrome") :
    reference_to_string reference ≠ "Reference error." ∧
    (reference = "uk-who" → reference_to_string reference = "UK-WHO") ∧
    (reference = "trisomy-21" → reference_to_string reference = "Trisomy 21/Down's Syndrome") ∧
    (reference = "turners-syndrome" → reference_to_string reference = "Turner's Syndrome") := by
  rcases h with h | h | h <;> subst h <;>
    exact ⟨by decide,
      fun h2 => by first | rfl | exact absurd h2 (by decide),
      fun h2 => by first | rfl | exact absurd h2 (by decide),
      fun h2 => by first | rfl | exact absurd h2 (by decide)⟩

/-- C10 witness: the display name of "uk-who". -/
theorem reference_to_string_display_witness :
    reference_to_string "uk-who" ≠ "Reference error." ∧
    ("uk-who" = "uk-who" → reference_to_string "uk-who" = "UK-WHO") ∧
    ("uk-who" = "trisomy-21" → reference_to_string "uk-who" = "Trisomy 21/Down's Syndrome") ∧
    ("uk-who" = "turners-syndrome" → reference_to_string "uk-who" = "Turner's Syndrome") :=
  reference_to_string_display "uk-who" (Or.inl rfl)
